import Mathlib

/-!
Verification development for the clilint challenge-descriptor linter.

The repository contains two evolutions of the linter: a hard-coded one
(main.go: fixed tag list and a fixed welcome-requirement check) and a
config-driven one (the unnamed source file with loadLintConfig /
checkPatternMatch: policy-loaded rules over patterns).  Go strings are
embedded as lists of characters; Go string-library helpers used by the
linter (strings.Contains, ToLower, TrimSuffix, TrimSpace, EqualFold,
Join) are embedded below with names carrying a go-Prefix-free marker.
Filesystem access (os.Stat resolved against the descriptor directory)
and the YAML parser are external collaborators and enter as explicit
oracle parameters, so every check stays a pure, executable function.
-/

/-- Go string, embedded as its list of characters. -/
abbrev Str := List Char

/-- Characters of a Lean string literal, used to write Go string literals. -/
def str (s : String) : Str := s.data

/-- Embedding of Go strings.Contains: sub occurs contiguously in s
(the empty needle is contained in every string). -/
def goContains : Str → Str → Bool
  | s, sub =>
    if sub.isPrefixOf s then true
    else
      match s with
      | [] => false
      | _ :: rest => goContains rest sub

/-- Embedding of Go strings.ToLower, per-character lowering. -/
def goToLower (s : Str) : Str := s.map Char.toLower

/-- Embedding of Go strings.TrimSuffix: removes one trailing copy of the
given ending when present, otherwise returns the string unchanged. -/
def goTrimSuffix (s ending : Str) : Str :=
  if ending.isSuffixOf s then s.take (s.length - ending.length) else s

/-- Embedding of Go strings.TrimSpace: drops whitespace from both ends. -/
def goTrimSpace (s : Str) : Str :=
  ((s.dropWhile Char.isWhitespace).reverse.dropWhile Char.isWhitespace).reverse

/-- Embedding of Go strings.EqualFold, modelled as equality after
per-character lowering (simple case folding). -/
def goEqualFold (a b : Str) : Bool := goToLower a == goToLower b

/-- Embedding of Go strings.Join with a separator. -/
def goJoin (elems : List Str) (sep : Str) : Str :=
  match elems with
  | [] => []
  | x :: xs => x ++ xs.foldr (fun y acc => sep ++ y ++ acc) []

/-- Challenge from the source (both evolutions declare the same shape):
the parsed challenge document.  The fields extra and hints are free-form
opaque YAML values never consulted by any check and are elided here;
image and host are Go interface values checked only for nil-ness, so
they are embedded as nullable opaque values. -/
structure Challenge where
  name : Str
  author : Str
  category : Str
  description : Str
  flags : List Str
  tags : List Str
  files : List Str
  requirements : List Str
  value : Int
  type : Str
  image : Option Str
  host : Option Str
  state : Str
  version : Str

/-- Pattern from the config-driven source: a typed matcher with values. -/
structure Pattern where
  type : Str
  values : List Str

/-- Rule from the config-driven source: a condition plus patterns. -/
structure Rule where
  condition : Str
  patterns : List Pattern

/-- LintConfig from the config-driven source. -/
structure LintConfig where
  tags : Rule
  requirements : Rule

/-- LintResult from the source: per-file report record. -/
structure LintResult where
  File : Str
  Errors : List Str
  Name : Str
  Description : Str

/-- Outcome of an os.Stat call on one declared file, resolved against the
descriptor directory (filepath.Join with filepath.Dir of the descriptor
path); the resolution and the filesystem snapshot are folded into an
oracle from declared relative path to stat outcome. -/
inductive StatResult where
  | notExist
  | accessError (msg : Str)
  | file (size : Nat)

/-- Outcome of reading and YAML-parsing one descriptor file, the two
fallible external steps of lintChallengeFile. -/
inductive FileInput where
  | readError (msg : Str)
  | parseError (msg : Str)
  | parsed (c : Challenge)

/-- State of the optional lintrc.yaml policy file as loadLintConfig
observes it: absent in both probed locations, present but unreadable,
present but not parseable, or present with a parsed configuration. -/
inductive ConfigSource where
  | absent
  | readError (msg : Str)
  | parseError (msg : Str)
  | present (cfg : LintConfig)

/-- getDefaultLintConfig from the config-driven source: built-in policy
(tags: exactly one of easy, medium, hard; requirements: welcome). -/
def getDefaultLintConfig : LintConfig :=
  { tags :=
      { condition := str "and"
        patterns := [{ type := str "static", values := [str "easy", str "medium", str "hard"] }] }
    requirements :=
      { condition := str "and"
        patterns := [{ type := str "static", values := [str "welcome"] }] } }

/-- loadLintConfig from the config-driven source: a missing lintrc.yaml
falls back to the built-in default with no error; read and parse
failures are returned as errors with the corresponding message. -/
def loadLintConfig (src : ConfigSource) : Except Str LintConfig :=
  match src with
  | .absent => .ok getDefaultLintConfig
  | .readError m => .error (str "failed to read lintrc.yaml: " ++ m)
  | .parseError m => .error (str "failed to parse lintrc.yaml: " ++ m)
  | .present cfg => .ok cfg

/-- checkPatternMatch from the config-driven source.  The regex-named
kind strips a trailing star and surrounding whitespace from each value
and tests containment in the lowered author field (the value itself is
not lowered); the static kind tests case-folded equality against the
requirements entries; unknown kinds match false. -/
def checkPatternMatch (challenge : Challenge) (pattern : Pattern) : Bool :=
  if pattern.type = str "regex" then
    pattern.values.any (fun value =>
      goContains (goToLower challenge.author) (goTrimSpace (goTrimSuffix value (str "*"))))
  else if pattern.type = str "static" then
    challenge.requirements.any (fun req =>
      pattern.values.any (fun value => goEqualFold req value))
  else
    false

/-- Loop body of checkRequirements in the config-driven source: one
diagnostic per pattern that checkPatternMatch rejects, in order. -/
def evalReqPatterns (challenge : Challenge) : List Pattern → List Str
  | [] => []
  | p :: rest =>
    (if checkPatternMatch challenge p then []
     else [str "Requirements validation failed for pattern type \x27" ++ p.type ++ str "\x27"]) ++
    evalReqPatterns challenge rest

/-- checkRequirements from the config-driven source: exempt when the
lowered name contains welcome, otherwise evaluate the patterns when the
condition is the and-string and do nothing for any other condition. -/
def checkRequirements (challenge : Challenge) (reqRule : Rule) : List Str :=
  if goContains (goToLower challenge.name) (str "welcome") then []
  else if reqRule.condition = str "and" then evalReqPatterns challenge reqRule.patterns
  else []

/-- Inner double loop of checkTags in the config-driven source: how many
entries of the tag list occur in the value list, the break in the inner
loop counting each tag entry at most once (duplicate tag entries count
separately). -/
def countMatches (tags : List Str) (values : List Str) : Nat :=
  match tags with
  | [] => 0
  | t :: rest => (if values.contains t then 1 else 0) + countMatches rest values

/-- Loop body of checkTags in the config-driven source: only the static
pattern kind is handled; it requires exactly one tag match and reports
the configured values joined in declared order otherwise. -/
def evalTagPatterns (tags : List Str) : List Pattern → List Str
  | [] => []
  | p :: rest =>
    (if p.type = str "static" then
      (if countMatches tags p.values = 1 then []
       else [str "Tags should contain exactly one of: " ++ goJoin p.values (str ", ")])
     else []) ++
    evalTagPatterns tags rest

/-- checkTags from the config-driven source: evaluate the patterns when
the condition is the and-string, otherwise produce nothing. -/
def checkTags (tags : List Str) (tagRule : Rule) : List Str :=
  if tagRule.condition = str "and" then evalTagPatterns tags tagRule.patterns
  else []

/-- checkImage, identical in both evolutions: image must be null. -/
def checkImage (image : Option Str) : List Str :=
  if image.isSome then [str "Field \x27image\x27 should be null"] else []

/-- checkState, identical in both evolutions. -/
def checkState (state : Str) : List Str :=
  if state = str "visible" then [] else [str "Field \x27state\x27 should be \x27visible\x27"]

/-- checkVersion, identical in both evolutions. -/
def checkVersion (version : Str) : List Str :=
  if version = str "0.1" then [] else [str "Field \x27version\x27 should be \x270.1\x27"]

/-- Round constant of checkFiles in the config-driven source. -/
def maxFileSize : Nat := 1024 * 1024

/-- Rounds num / den to the nearest integer, ties to even, on naturals. -/
def roundHalfEven (num den : Nat) : Nat :=
  let q := num / den
  let r := num % den
  if 2 * r < den then q
  else if den < 2 * r then q + 1
  else if q % 2 = 0 then q else q + 1

/-- Decimal digits of a natural number. -/
def natDigits (n : Nat) : Str := Nat.toDigits 10 n

/-- Model of the Go Sprintf verb for a float with two decimals applied to
size / (1024*1024): round-half-even at two decimal places of the exact
rational.  The float64 quotient is exact for size below 2 to the 53 (a
division by a power of two only shifts the exponent), and Go formats the
float with correctly-rounded half-even decimal conversion, so this model
agrees with the source for every realistic file size. -/
def formatMB (size : Nat) : Str :=
  let hundredths := roundHalfEven (size * 100) (1024 * 1024)
  natDigits (hundredths / 100) ++ str "." ++
    (if hundredths % 100 < 10 then str "0" ++ natDigits (hundredths % 100)
     else natDigits (hundredths % 100))

/-- checkFiles from the config-driven source: per declared file, in
order, a missing file or a stat failure yields one diagnostic, and an
existing file yields the too-large diagnostic exactly when its size
strictly exceeds maxFileSize. -/
def checkFiles (stat : Str → StatResult) : List Str → List Str
  | [] => []
  | file :: rest =>
    (match stat file with
     | .notExist => [str "File specified in \x27files\x27 does not exist: " ++ file]
     | .accessError msg => [str "Error accessing file: " ++ file ++ str " (" ++ msg ++ str ")"]
     | .file size =>
       if maxFileSize < size then
         [str "File \x27" ++ file ++ str "\x27 is too large: " ++ formatMB size ++
           str " MB (maximum allowed: 1.00 MB)"]
       else []) ++
    checkFiles stat rest

/-- lintChallengeFile from the config-driven source: load the policy,
then read, then parse, each failure short-circuiting with a single
diagnostic; on success run the file, requirements, image, state, version
and tag checks and concatenate their diagnostics. -/
def lintChallengeFile (cfgSrc : ConfigSource) (stat : Str → StatResult)
    (filePath : Str) (input : FileInput) : LintResult :=
  match loadLintConfig cfgSrc with
  | .error e => ⟨filePath, [str "Failed to load lint config: " ++ e], [], []⟩
  | .ok config =>
    match input with
    | .readError m => ⟨filePath, [str "Failed to read file: " ++ m], [], []⟩
    | .parseError m => ⟨filePath, [str "Invalid YAML format: " ++ m], [], []⟩
    | .parsed challenge =>
      ⟨filePath,
        checkFiles stat challenge.files ++
        checkRequirements challenge config.requirements ++
        checkImage challenge.image ++
        checkState challenge.state ++
        checkVersion challenge.version ++
        checkTags challenge.tags config.tags,
        challenge.name, challenge.description⟩

/-- lintChallenges from the source: the recursive walk collects one
LintResult per discovered descriptor file; the walk itself is an
external collaborator, so the discovered files enter as the list of
their paths paired with their read-and-parse outcomes, and each
descriptor directory's filesystem snapshot is the stat oracle applied
to its path. -/
def lintChallenges (cfgSrc : ConfigSource) (statOf : Str → Str → StatResult)
    (files : List (Str × FileInput)) : List LintResult :=
  files.map (fun pf => lintChallengeFile cfgSrc (statOf pf.1) pf.1 pf.2)

/-- checkTags from main.go, the hard-coded evolution: fixed list of
valid tags, of which the tag list must contain exactly one. -/
def mainCheckTags (tags : List Str) : List Str :=
  let validTags := [str "introduction", str "easy", str "medium", str "hard"]
  let foundValidTags := tags.filter (fun tag => validTags.contains tag)
  if foundValidTags.length = 1 then []
  else [str "Tags should contain exactly one of: introduction, easy, medium, hard"]

/-- checkRequirements from main.go, the hard-coded evolution: when the
lowered name does not contain welcome, some requirements entry must
lower to exactly welcome. -/
def mainCheckRequirements (name : Str) (requirements : List Str) : List Str :=
  if goContains (goToLower name) (str "welcome") then []
  else if requirements.any (fun req => goToLower req == str "welcome") then []
  else [str "Challenges without \x27welcome\x27 in name must have \x27welcome\x27 in requirements"]

/-- Modelled from the spec: the later-evolution fixed-field check on the
host field (the spec requires host to be null or absent, checked
alongside the image check, in the later evolution); the later-evolution
linter itself is not among the provided source files - only its test
suite, which also expects a warnings tier, is - so the diagnostic text
follows the image check's wording with host in place of image. -/
def checkHost (host : Option Str) : List Str :=
  if host.isSome then [str "Field \x27host\x27 should be null"] else []

/-- Modelled from the spec: the later-evolution lintChallengeFile, whose
source file is not provided; per the spec it runs the config-driven
checks with the host check added alongside the image check (its warning
tier is elided since no claim consults warnings). -/
def lintChallengeFileLater (cfgSrc : ConfigSource) (stat : Str → StatResult)
    (filePath : Str) (input : FileInput) : LintResult :=
  match loadLintConfig cfgSrc with
  | .error e => ⟨filePath, [str "Failed to load lint config: " ++ e], [], []⟩
  | .ok config =>
    match input with
    | .readError m => ⟨filePath, [str "Failed to read file: " ++ m], [], []⟩
    | .parseError m => ⟨filePath, [str "Invalid YAML format: " ++ m], [], []⟩
    | .parsed challenge =>
      ⟨filePath,
        checkFiles stat challenge.files ++
        checkRequirements challenge config.requirements ++
        checkImage challenge.image ++
        checkHost challenge.host ++
        checkState challenge.state ++
        checkVersion challenge.version ++
        checkTags challenge.tags config.tags,
        challenge.name, challenge.description⟩

/-- Sample valid challenge used by the concrete witnesses. -/
def sampleChallenge : Challenge :=
  { name := str "x", author := str "alice", category := str "misc",
    description := str "d", flags := [str "flag"], tags := [str "easy"],
    files := [], requirements := [], value := 500, type := str "dynamic",
    image := none, host := none, state := str "visible", version := str "0.1" }

/-- Evaluating requirement patterns distributes over list append. -/
theorem evalReqPatterns_append (c : Challenge) (l1 l2 : List Pattern) :
    evalReqPatterns c (l1 ++ l2) = evalReqPatterns c l1 ++ evalReqPatterns c l2 := by
  induction l1 with
  | nil => simp [evalReqPatterns]
  | cons p rest ih => simp [evalReqPatterns, ih]

/-- Evaluating tag patterns distributes over list append. -/
theorem evalTagPatterns_append (tags : List Str) (l1 l2 : List Pattern) :
    evalTagPatterns tags (l1 ++ l2) = evalTagPatterns tags l1 ++ evalTagPatterns tags l2 := by
  induction l1 with
  | nil => simp [evalTagPatterns]
  | cons p rest ih => simp [evalTagPatterns, ih]

/-- The tag-match count is the length of the filtered tag list. -/
theorem countMatches_eq_filter (tags values : List Str) :
    countMatches tags values = (tags.filter (fun t => values.contains t)).length := by
  induction tags with
  | nil => rfl
  | cons t rest ih =>
    by_cases h : t ∈ values <;>
      simp [countMatches, List.filter_cons, h, ih, Nat.add_comm]

/-- C4: in a rule with the and-condition, a static pattern contributes no
diagnostic when exactly one tag entry occurs in its values (duplicates in
the tag list counted separately) and exactly the one diagnostic listing
its values in declared order when the count is zero or at least two. -/
theorem checkTags_static_exactly_one (tags values : List Str) (ps1 ps2 : List Pattern) :
    checkTags tags ⟨str "and", ps1 ++ ⟨str "static", values⟩ :: ps2⟩ =
      checkTags tags ⟨str "and", ps1⟩ ++
      (if countMatches tags values = 1 then []
       else [str "Tags should contain exactly one of: " ++ goJoin values (str ", ")]) ++
      checkTags tags ⟨str "and", ps2⟩ := by
  simp [checkTags, evalTagPatterns_append, evalTagPatterns]

/-- C5: a descriptor whose name contains welcome in any letter case is
exempt from the requirements check in both evolutions, whatever the
requirements list and the requirements rule. -/
theorem checkRequirements_welcome_exempt (c : Challenge) (rule : Rule)
    (h : goContains (goToLower c.name) (str "welcome") = true) :
    checkRequirements c rule = [] ∧ mainCheckRequirements c.name c.requirements = [] := by
  refine ⟨?_, ?_⟩ <;> simp [checkRequirements, mainCheckRequirements, h]

/-- Witness for C5 at a concrete upper-case name. -/
theorem checkRequirements_welcome_exempt_witness :
    goContains (goToLower (str "The WELCOME gate")) (str "welcome") = true ∧
    checkRequirements { sampleChallenge with name := str "The WELCOME gate" }
      getDefaultLintConfig.requirements = [] ∧
    mainCheckRequirements (str "The WELCOME gate") [] = [] := by
  have h := checkRequirements_welcome_exempt
    { sampleChallenge with name := str "The WELCOME gate" }
    getDefaultLintConfig.requirements (by decide)
  exact ⟨by decide, h.1, h.2⟩

/-- C8: a rule whose condition is not the and-string makes both checks
produce nothing, and the and-condition with no patterns also produces
nothing. -/
theorem rule_non_and_no_diagnostics (c : Challenge) (tags : List Str) (rule : Rule) :
    (rule.condition ≠ str "and" → checkTags tags rule = [] ∧ checkRequirements c rule = []) ∧
    (checkTags tags ⟨str "and", []⟩ = [] ∧ checkRequirements c ⟨str "and", []⟩ = []) := by
  constructor
  · intro h
    constructor
    · simp [checkTags, h]
    · cases g : goContains (goToLower c.name) (str "welcome") <;>
        simp [checkRequirements, g, h]
  · constructor
    · simp [checkTags, evalTagPatterns]
    · cases g : goContains (goToLower c.name) (str "welcome") <;>
        simp [checkRequirements, g, evalReqPatterns]

/-- Witness for C8 at the or-condition and at an empty pattern list. -/
theorem rule_non_and_no_diagnostics_witness :
    (str "or" ≠ str "and") ∧
    checkTags [str "bogus"] ⟨str "or", [⟨str "static", [str "easy"]⟩]⟩ = [] ∧
    checkRequirements sampleChallenge ⟨str "or", [⟨str "static", [str "welcome"]⟩]⟩ = [] ∧
    checkTags [str "bogus"] ⟨str "and", []⟩ = [] ∧
    checkRequirements sampleChallenge ⟨str "and", []⟩ = [] := by
  have h1 := (rule_non_and_no_diagnostics sampleChallenge [str "bogus"]
    ⟨str "or", [⟨str "static", [str "easy"]⟩]⟩).1 (by decide)
  have h2 := (rule_non_and_no_diagnostics sampleChallenge [str "bogus"]
    ⟨str "or", [⟨str "static", [str "welcome"]⟩]⟩).1 (by decide)
  have h3 := (rule_non_and_no_diagnostics sampleChallenge [str "bogus"]
    ⟨str "and", []⟩).2
  exact ⟨by decide, h1.1, h2.2, h3.1, h3.2⟩

/-- C9: a missing policy file loads as the built-in default with no
error, while a malformed one makes each file's lint result carry exactly
the one load-failure diagnostic with no other checks run, and the batch
still yields one result per discovered file. -/
theorem loadLintConfig_fallback_and_failure (m : Str) (stat : Str → StatResult)
    (statOf : Str → Str → StatResult) (path : Str) (input : FileInput)
    (files : List (Str × FileInput)) :
    loadLintConfig ConfigSource.absent = Except.ok getDefaultLintConfig ∧
    lintChallengeFile (ConfigSource.parseError m) stat path input =
      ⟨path, [str "Failed to load lint config: " ++ (str "failed to parse lintrc.yaml: " ++ m)],
        [], []⟩ ∧
    (lintChallenges (ConfigSource.parseError m) statOf files).length = files.length := by
  refine ⟨rfl, ?_, by simp [lintChallenges]⟩
  simp [lintChallengeFile, loadLintConfig]

/-- Lowering the welcome literal is the identity. -/
theorem goToLower_welcome : goToLower (str "welcome") = str "welcome" := by decide

/-- The static welcome pattern matches exactly when some requirements
entry lowers to the welcome literal. -/
theorem checkPatternMatch_static_welcome (c : Challenge) :
    checkPatternMatch c ⟨str "static", [str "welcome"]⟩ =
      c.requirements.any (fun req => goToLower req == str "welcome") := by
  unfold checkPatternMatch
  rw [if_neg (by decide), if_pos rfl]
  simp [goEqualFold, goToLower_welcome]

/-- C2 counterexample: on the tag list holding only the introduction
tag, the hard-coded evaluator accepts while the config-driven evaluator
under the built-in default policy (whose values are easy, medium, hard
only) emits a diagnostic, so the two are not extensionally equal under
the default policy. -/
theorem hardcoded_vs_default_counterexample :
    mainCheckTags [str "introduction"] = [] ∧
    checkTags [str "introduction"] getDefaultLintConfig.tags ≠ [] := by
  constructor <;> decide

/-- C2 amended: the hard-coded requirements check is the degenerate case
of the config-driven one under the built-in default policy, and the
hard-coded tag check is the degenerate case of the config-driven one
under the and-condition static rule whose values are introduction, easy,
medium, hard - not under getDefaultLintConfig, whose value list lacks
introduction. -/
theorem hardcoded_is_degenerate_config :
    (∀ c : Challenge,
      mainCheckRequirements c.name c.requirements ≠ [] ↔
        checkRequirements c getDefaultLintConfig.requirements ≠ []) ∧
    (∀ tags : List Str,
      mainCheckTags tags ≠ [] ↔
        checkTags tags ⟨str "and",
          [⟨str "static", [str "introduction", str "easy", str "medium", str "hard"]⟩]⟩ ≠ []) := by
  constructor
  · intro c
    cases g : goContains (goToLower c.name) (str "welcome")
    · have hpm := checkPatternMatch_static_welcome c
      simp only [mainCheckRequirements, checkRequirements, g, Bool.false_eq_true, if_false,
        if_pos rfl, getDefaultLintConfig, evalReqPatterns, hpm]
      cases h : c.requirements.any (fun req => goToLower req == str "welcome") <;> simp [h]
    · simp [mainCheckRequirements, checkRequirements, g]
  · intro tags
    have h := countMatches_eq_filter tags [str "introduction", str "easy", str "medium", str "hard"]
    simp only [mainCheckTags, checkTags, if_pos rfl, evalTagPatterns, List.append_nil]
    rw [← h]
    cases hc : decide (countMatches tags
      [str "introduction", str "easy", str "medium", str "hard"] = 1) <;>
      simp_all

/-- C3 counterexample: with author A and the single regex-kind value A,
the normalized value is a case-insensitive substring of the author, yet
checkPatternMatch returns false, because the code lowers only the author
and compares the pattern value verbatim. -/
theorem regex_case_sensitivity_counterexample :
    checkPatternMatch { sampleChallenge with author := str "A" } ⟨str "regex", [str "A"]⟩ = false ∧
    goContains (goToLower (str "A")) (goToLower (goTrimSpace (goTrimSuffix (str "A") (str "*")))) =
      true := by
  constructor <;> decide

/-- C3 amended: for a regex-kind pattern, checkPatternMatch is true
exactly when some value, stripped of one trailing star and then of
surrounding whitespace, occurs verbatim in the lowered author field; the
author's letter case is thus immaterial, but the value's is not. -/
theorem checkPatternMatch_regex_characterization (c : Challenge) (p : Pattern)
    (h : p.type = str "regex") :
    checkPatternMatch c p = true ↔
      ∃ v ∈ p.values,
        goContains (goToLower c.author) (goTrimSpace (goTrimSuffix v (str "*"))) = true := by
  unfold checkPatternMatch
  rw [if_pos h]
  simp [List.any_eq_true]

/-- Witness for C3 at a concrete author and pattern value. -/
theorem checkPatternMatch_regex_witness :
    checkPatternMatch { sampleChallenge with author := str "The Alice" }
      ⟨str "regex", [str "ali *"]⟩ = true :=
  (checkPatternMatch_regex_characterization
    { sampleChallenge with author := str "The Alice" } ⟨str "regex", [str "ali *"]⟩ rfl).mpr
    ⟨str "ali *", by decide, by decide⟩

/-- Diagnostics of checkFiles distribute over list append. -/
theorem checkFiles_append (stat : Str → StatResult) (l1 l2 : List Str) :
    checkFiles stat (l1 ++ l2) = checkFiles stat l1 ++ checkFiles stat l2 := by
  induction l1 with
  | nil => simp [checkFiles]
  | cons f rest ih => simp [checkFiles, ih]

/-- C7: a declared file that stats to an existing file of a given size
contributes the too-large diagnostic, with the size rendered at two
decimal places and the fixed maximum text, exactly when its size in
bytes strictly exceeds maxFileSize = 1048576. -/
theorem checkFiles_size_boundary (stat : Str → StatResult) (fs1 fs2 : List Str)
    (file : Str) (size : Nat) (h : stat file = StatResult.file size) :
    checkFiles stat (fs1 ++ file :: fs2) =
      checkFiles stat fs1 ++
      (if maxFileSize < size then
        [str "File \x27" ++ file ++ str "\x27 is too large: " ++ formatMB size ++
          str " MB (maximum allowed: 1.00 MB)"]
       else []) ++
      checkFiles stat fs2 := by
  simp [checkFiles_append, checkFiles, h]

/-- Witness for C7 at the 1 MiB boundary: exactly 1048576 bytes passes,
1048577 bytes is reported as 1.00 MB over the 1.00 MB maximum. -/
theorem checkFiles_size_boundary_witness :
    checkFiles (fun _ => StatResult.file 1048576) [str "a.bin"] = [] ∧
    checkFiles (fun _ => StatResult.file 1048577) [str "a.bin"] =
      [str "File \x27a.bin\x27 is too large: 1.00 MB (maximum allowed: 1.00 MB)"] := by
  have h1 := checkFiles_size_boundary (fun _ => StatResult.file 1048576) [] []
    (str "a.bin") 1048576 rfl
  have h2 := checkFiles_size_boundary (fun _ => StatResult.file 1048577) [] []
    (str "a.bin") 1048577 rfl
  simp only [List.nil_append] at h1 h2
  constructor
  · rw [h1]; decide
  · rw [h2]; decide

/-- C6: under a successfully loaded policy, a file whose bytes fail to
parse yields a result whose error sequence is exactly the single
diagnostic carrying the Invalid YAML format text and the parser's cause,
with no field, tag, requirements or file check run; and the batch maps
every discovered file to its own independent result, so one file's parse
failure never perturbs the others. -/
theorem lintChallengeFile_parse_failure (cfgSrc : ConfigSource) (cfg : LintConfig)
    (hc : loadLintConfig cfgSrc = Except.ok cfg) (stat : Str → StatResult)
    (statOf : Str → Str → StatResult) (path m : Str) (files : List (Str × FileInput)) :
    lintChallengeFile cfgSrc stat path (FileInput.parseError m) =
      ⟨path, [str "Invalid YAML format: " ++ m], [], []⟩ ∧
    (lintChallenges cfgSrc statOf files).length = files.length ∧
    ∀ i : Nat, (lintChallenges cfgSrc statOf files)[i]? =
      (files[i]?).map (fun pf => lintChallengeFile cfgSrc (statOf pf.1) pf.1 pf.2) := by
  refine ⟨?_, by simp [lintChallenges], fun i => by simp [lintChallenges]⟩
  simp [lintChallengeFile, hc]

/-- Witness for C6: a concrete parse failure under the default policy,
sitting in a batch beside a healthy sibling descriptor. -/
theorem lintChallengeFile_parse_failure_witness :
    lintChallengeFile ConfigSource.absent (fun _ => StatResult.notExist) (str "p/challenge.yml")
        (FileInput.parseError (str "boom")) =
      ⟨str "p/challenge.yml", [str "Invalid YAML format: " ++ str "boom"], [], []⟩ ∧
    (lintChallenges ConfigSource.absent (fun _ _ => StatResult.notExist)
        [(str "a/challenge.yml", FileInput.parseError (str "boom")),
         (str "b/challenge.yml", FileInput.parsed sampleChallenge)]).length = 2 := by
  have h := lintChallengeFile_parse_failure ConfigSource.absent getDefaultLintConfig rfl
    (fun _ => StatResult.notExist) (fun _ _ => StatResult.notExist)
    (str "p/challenge.yml") (str "boom")
    [(str "a/challenge.yml", FileInput.parseError (str "boom")),
     (str "b/challenge.yml", FileInput.parsed sampleChallenge)]
  exact ⟨h.1, h.2.1⟩

/-- C10: a pattern with an empty value sequence matches false under both
the static and the regex kind, so inside an and-condition requirements
rule it yields its failure diagnostic for every descriptor that the
welcome name rule does not exempt. -/
theorem emptyValues_fail_closed (c : Challenge) (typ : Str) (ps1 ps2 : List Pattern)
    (htyp : typ = str "static" ∨ typ = str "regex")
    (hname : goContains (goToLower c.name) (str "welcome") = false) :
    checkPatternMatch c ⟨typ, []⟩ = false ∧
    (str "Requirements validation failed for pattern type \x27" ++ typ ++ str "\x27") ∈
      checkRequirements c ⟨str "and", ps1 ++ ⟨typ, []⟩ :: ps2⟩ := by
  have hfalse : checkPatternMatch c ⟨typ, []⟩ = false := by
    rcases htyp with h | h <;> subst h
    · unfold checkPatternMatch
      rw [if_neg (by decide), if_pos rfl]
      simp
    · unfold checkPatternMatch
      rw [if_pos rfl]
      simp
  refine ⟨hfalse, ?_⟩
  unfold checkRequirements
  rw [hname]
  rw [if_neg (by simp), if_pos rfl]
  rw [evalReqPatterns_append]
  simp [evalReqPatterns, hfalse]

/-- Witness for C10 at a concrete unexempted descriptor and an empty
static pattern. -/
theorem emptyValues_fail_closed_witness :
    checkPatternMatch sampleChallenge ⟨str "static", []⟩ = false ∧
    (str "Requirements validation failed for pattern type \x27" ++ str "static" ++ str "\x27") ∈
      checkRequirements sampleChallenge ⟨str "and", [⟨str "static", []⟩]⟩ := by
  have h := emptyValues_fail_closed sampleChallenge (str "static") [] []
    (Or.inl rfl) (by decide)
  exact ⟨h.1, h.2⟩

/-- Two lists differing at an index inside the first part of an append
are distinct; used to separate diagnostics by their fixed openings. -/
theorem append_ne_of_getElem?_lt (pre suf t : Str) (i : Nat) (hi : i < pre.length)
    (h : pre[i]? ≠ t[i]?) : pre ++ suf ≠ t := by
  intro he
  exact h (by rw [← he, List.getElem?_append]; simp [hi])

/-- The host diagnostic never arises from the file checker. -/
theorem hostMsg_not_mem_checkFiles (stat : Str → StatResult) (files : List Str) :
    str "Field \x27host\x27 should be null" ∉ checkFiles stat files := by
  induction files with
  | nil => simp [checkFiles]
  | cons f rest ih =>
    simp only [checkFiles, List.mem_append]
    rintro (hmem | hmem)
    · cases hstat : stat f with
      | notExist =>
        simp only [hstat, List.mem_singleton] at hmem
        exact append_ne_of_getElem?_lt
          (str "File specified in \x27files\x27 does not exist: ") f _ 2
          (by decide) (by decide) hmem.symm
      | accessError msg =>
        simp only [hstat, List.mem_singleton, List.append_assoc] at hmem
        exact append_ne_of_getElem?_lt (str "Error accessing file: ") _ _ 0
          (by decide) (by decide) hmem.symm
      | file size =>
        simp only [hstat] at hmem
        by_cases hsz : maxFileSize < size
        · rw [if_pos hsz] at hmem
          simp only [List.mem_singleton, List.append_assoc] at hmem
          exact append_ne_of_getElem?_lt (str "File \x27") _ _ 2
            (by decide) (by decide) hmem.symm
        · rw [if_neg hsz] at hmem
          simp at hmem
    · exact ih hmem

/-- The host diagnostic never arises from the requirement patterns. -/
theorem hostMsg_not_mem_evalReqPatterns (c : Challenge) (ps : List Pattern) :
    str "Field \x27host\x27 should be null" ∉ evalReqPatterns c ps := by
  induction ps with
  | nil => simp [evalReqPatterns]
  | cons p rest ih =>
    simp only [evalReqPatterns, List.mem_append]
    rintro (hmem | hmem)
    · by_cases hp : checkPatternMatch c p = true
      · rw [if_pos hp] at hmem
        simp at hmem
      · rw [if_neg hp] at hmem
        simp only [List.mem_singleton, List.append_assoc] at hmem
        exact append_ne_of_getElem?_lt
          (str "Requirements validation failed for pattern type \x27") _ _ 0
          (by decide) (by decide) hmem.symm
    · exact ih hmem

/-- The host diagnostic never arises from the requirements check. -/
theorem hostMsg_not_mem_checkRequirements (c : Challenge) (rule : Rule) :
    str "Field \x27host\x27 should be null" ∉ checkRequirements c rule := by
  unfold checkRequirements
  split
  · simp
  · split
    · exact hostMsg_not_mem_evalReqPatterns c rule.patterns
    · simp

/-- The host diagnostic never arises from the tag patterns. -/
theorem hostMsg_not_mem_evalTagPatterns (tags : List Str) (ps : List Pattern) :
    str "Field \x27host\x27 should be null" ∉ evalTagPatterns tags ps := by
  induction ps with
  | nil => simp [evalTagPatterns]
  | cons p rest ih =>
    simp only [evalTagPatterns, List.mem_append]
    rintro (hmem | hmem)
    · by_cases ht : p.type = str "static"
      · rw [if_pos ht] at hmem
        by_cases hc : countMatches tags p.values = 1
        · rw [if_pos hc] at hmem
          simp at hmem
        · rw [if_neg hc] at hmem
          simp only [List.mem_singleton] at hmem
          exact append_ne_of_getElem?_lt (str "Tags should contain exactly one of: ") _ _ 0
            (by decide) (by decide) hmem.symm
      · rw [if_neg ht] at hmem
        simp at hmem
    · exact ih hmem

/-- The host diagnostic never arises from the tag check. -/
theorem hostMsg_not_mem_checkTags (tags : List Str) (rule : Rule) :
    str "Field \x27host\x27 should be null" ∉ checkTags tags rule := by
  unfold checkTags
  split
  · exact hostMsg_not_mem_evalTagPatterns tags rule.patterns
  · simp

/-- The host diagnostic never arises from the image check. -/
theorem hostMsg_not_mem_checkImage (im : Option Str) :
    str "Field \x27host\x27 should be null" ∉ checkImage im := by
  cases im with
  | none => simp [checkImage]
  | some v =>
    have hv : checkImage (some v) = [str "Field \x27image\x27 should be null"] := rfl
    rw [hv]
    simp only [List.mem_singleton]
    decide

/-- The host diagnostic never arises from the state check. -/
theorem hostMsg_not_mem_checkState (s : Str) :
    str "Field \x27host\x27 should be null" ∉ checkState s := by
  unfold checkState
  split
  · simp
  · simp only [List.mem_singleton]
    decide

/-- The host diagnostic never arises from the version check. -/
theorem hostMsg_not_mem_checkVersion (v : Str) :
    str "Field \x27host\x27 should be null" ∉ checkVersion v := by
  unfold checkVersion
  split
  · simp
  · simp only [List.mem_singleton]
    decide

/-- C1: in the later-evolution linter, a parsed descriptor carrying a
non-null host field is reported with the host-must-be-null diagnostic,
and a descriptor whose host is null or absent never receives it. -/
theorem lintChallengeFileLater_host_check (cfg : LintConfig) (stat : Str → StatResult)
    (path : Str) (c : Challenge) :
    (c.host.isSome = true →
      str "Field \x27host\x27 should be null" ∈
        (lintChallengeFileLater (ConfigSource.present cfg) stat path
          (FileInput.parsed c)).Errors) ∧
    (c.host = none →
      str "Field \x27host\x27 should be null" ∉
        (lintChallengeFileLater (ConfigSource.present cfg) stat path
          (FileInput.parsed c)).Errors) := by
  constructor
  · intro h
    simp [lintChallengeFileLater, loadLintConfig, checkHost, h]
  · intro h
    simp only [lintChallengeFileLater, loadLintConfig, List.mem_append, not_or]
    refine ⟨⟨⟨⟨⟨⟨?_, ?_⟩, ?_⟩, ?_⟩, ?_⟩, ?_⟩, ?_⟩
    · exact hostMsg_not_mem_checkFiles stat c.files
    · exact hostMsg_not_mem_checkRequirements c cfg.requirements
    · exact hostMsg_not_mem_checkImage c.image
    · simp [checkHost, h]
    · exact hostMsg_not_mem_checkState c.state
    · exact hostMsg_not_mem_checkVersion c.version
    · exact hostMsg_not_mem_checkTags c.tags cfg.tags

/-- Witness for C1: a concrete descriptor with a non-null host is
flagged and the same descriptor with host null is not. -/
theorem lintChallengeFileLater_host_check_witness :
    str "Field \x27host\x27 should be null" ∈
      (lintChallengeFileLater (ConfigSource.present getDefaultLintConfig)
        (fun _ => StatResult.notExist) (str "p/challenge.yml")
        (FileInput.parsed { sampleChallenge with host := some (str "h") })).Errors ∧
    str "Field \x27host\x27 should be null" ∉
      (lintChallengeFileLater (ConfigSource.present getDefaultLintConfig)
        (fun _ => StatResult.notExist) (str "p/challenge.yml")
        (FileInput.parsed sampleChallenge)).Errors :=
  ⟨(lintChallengeFileLater_host_check getDefaultLintConfig (fun _ => StatResult.notExist)
      (str "p/challenge.yml") { sampleChallenge with host := some (str "h") }).1 rfl,
   (lintChallengeFileLater_host_check getDefaultLintConfig (fun _ => StatResult.notExist)
      (str "p/challenge.yml") sampleChallenge).2 rfl⟩
